import Mathlib

/-!
Verification development for the DontREADME ingestion-and-retrieval pipeline.

Shallow embedding of the core components:
- `SmartTextSplitter` (src/utils/text_splitter.py)
- `HuggingFaceAPIEmbeddings` and `EnhancedVectorStoreManager`
  (src/app/components/vectorstore.py)
- `InputValidator` (src/utils/validators.py)
- `PerformanceMonitor` (src/utils/performance.py)

Python strings are modelled as Lean `String` (lists of characters); Python
dict-shaped metadata is modelled as association lists over an inductive
`PyVal` value type; the remote HTTP endpoint and the persistent collection
are modelled as explicit oracles / state records threaded through the
functions that use them.
-/

namespace DontREADME

/-! ## Character and string utilities (Python builtins, modelled) -/

/-- Modelled from the spec: Python `str.lower` is a library builtin, not part of
this repository. Lower-cases ASCII letters and the Latin-1 accented capital
letters used by the French keyword tables. -/
def lowerChar (c : Char) : Char :=
  if 'A' ≤ c ∧ c ≤ 'Z' then Char.ofNat (c.toNat + 32)
  else if 'À' ≤ c ∧ c ≤ 'Þ' ∧ c ≠ '×' then Char.ofNat (c.toNat + 32)
  else c

def pyLower (s : String) : String := String.mk (s.data.map lowerChar)

/-- Whitespace class of the Python `\s` regex atom (ASCII part). -/
def isSpaceCh (c : Char) : Bool :=
  c = ' ' ∨ c = '\t' ∨ c = '\n' ∨ c = '\r' ∨ c = '\x0b' ∨ c = '\x0c'

def isDigitCh (c : Char) : Bool := '0' ≤ c ∧ c ≤ '9'

/-- Letter class of the keyword-extraction regex in
`SmartTextSplitter._extract_keywords`: ASCII letters plus the French accented
letters listed in the character class. -/
def isLetterFr (c : Char) : Bool :=
  ('a' ≤ c ∧ c ≤ 'z') ∨ ('A' ≤ c ∧ c ≤ 'Z') ∨
  (('À' ≤ c ∧ c ≤ 'ÿ') ∧ c ≠ '×' ∧ c ≠ '÷')

/-- Word-character class of the Python `\w` regex atom (letters, digits,
underscore; accented letters included as in Python unicode mode). -/
def isWordCh (c : Char) : Bool := isLetterFr c ∨ isDigitCh c ∨ c = '_'

def isPrefixCh : List Char → List Char → Bool
  | [], _ => true
  | _ :: _, [] => false
  | a :: as, b :: bs => (a == b) && isPrefixCh as bs

/-- Python substring test `sub in s` on character lists. -/
def isInfixCh (sub : List Char) : List Char → Bool
  | [] => isPrefixCh sub []
  | c :: cs => isPrefixCh sub (c :: cs) || isInfixCh sub cs

/-- Python `sub in s` (substring containment). -/
def strContains (s sub : String) : Bool := isInfixCh sub.data s.data

/-- Python `str.strip` (both-ends whitespace trim), modelled builtin. -/
def stripChars (l : List Char) : List Char :=
  ((l.dropWhile isSpaceCh).reverse.dropWhile isSpaceCh).reverse

def pyStrip (s : String) : String := String.mk (stripChars s.data)

/-! ## Python metadata values (`_filter_complex_metadata` domain) -/

/-- Value universe of Python metadata dictionaries as they reach the storage
boundary in `EnhancedVectorStoreManager._filter_complex_metadata`:
the five ChromaDB-storable scalar kinds plus lists, dicts, and a catch-all
`other` for any further Python object (carrying its `str()` form). -/
inductive PyVal where
  | str (s : String)
  | int (n : Int)
  | float (q : ℚ)
  | bool (b : Bool)
  | none
  | list (xs : List PyVal)
  | dict (kvs : List (String × PyVal))
  | other (s : String)

mutual

/-- Modelled from the spec: Python builtin `str()`; only its type (a string)
matters to the claims, the rendering of containers is an approximation. -/
def pyStr : PyVal → String
  | .str s => s
  | .int n => toString n
  | .float q => toString q
  | .bool b => if b then "True" else "False"
  | .none => "None"
  | .list xs => "[" ++ String.intercalate ", " (pyStrList xs) ++ "]"
  | .dict kvs => "\x7b" ++ String.intercalate ", " (pyStrPairs kvs) ++ "\x7d"
  | .other s => s

def pyStrList : List PyVal → List String
  | [] => []
  | x :: xs => pyStr x :: pyStrList xs

def pyStrPairs : List (String × PyVal) → List String
  | [] => []
  | kv :: kvs => (kv.1 ++ ": " ++ pyStr kv.2) :: pyStrPairs kvs

end

mutual

/-- Modelled from the spec: Python builtin `json.dumps`; only its type (a
string) matters to the claims. -/
def jsonVal : PyVal → String
  | .str s => "\"" ++ s ++ "\""
  | .int n => toString n
  | .float q => toString q
  | .bool b => if b then "true" else "false"
  | .none => "null"
  | .list xs => "[" ++ String.intercalate ", " (jsonList xs) ++ "]"
  | .dict kvs => "\x7b" ++ String.intercalate ", " (jsonPairs kvs) ++ "\x7d"
  | .other s => "\"" ++ s ++ "\""

def jsonList : List PyVal → List String
  | [] => []
  | x :: xs => jsonVal x :: jsonList xs

def jsonPairs : List (String × PyVal) → List String
  | [] => []
  | kv :: kvs => ("\"" ++ kv.1 ++ "\": " ++ jsonVal kv.2) :: jsonPairs kvs

end

def jsonDumps (kvs : List (String × PyVal)) : String := jsonVal (.dict kvs)

/-- The ChromaDB-storable scalar test used by the `isinstance` guard in
`_filter_complex_metadata`: str, int, float, bool, or None. -/
def isScalar : PyVal → Bool
  | .str _ => true
  | .int _ => true
  | .float _ => true
  | .bool _ => true
  | .none => true
  | .list _ => false
  | .dict _ => false
  | .other _ => false

/-- One metadata value through the sanitization branch of
`EnhancedVectorStoreManager._filter_complex_metadata` (vectorstore.py
lines 314-327): scalars pass, lists join with a comma-space delimiter,
dicts serialize to JSON, anything else becomes its `str()` form. -/
def sanitizeValue : PyVal → PyVal
  | .str s => .str s
  | .int n => .int n
  | .float q => .float q
  | .bool b => .bool b
  | .none => .none
  | .list xs => .str (String.intercalate ", " (pyStrList xs))
  | .dict kvs => .str (jsonDumps kvs)
  | .other s => .str (pyStr (.other s))

/-- A langchain `Document`: page content plus a metadata dictionary
(modelled as an association list preserving insertion order). -/
structure Document where
  page_content : String
  metadata : List (String × PyVal)

/-- `EnhancedVectorStoreManager._filter_complex_metadata`: rebuilds every
document with the same content and each metadata value sanitized. -/
def filterComplexMetadata (docs : List Document) : List Document :=
  docs.map (fun d =>
    { page_content := d.page_content,
      metadata := d.metadata.map (fun kv => (kv.1, sanitizeValue kv.2)) })

/-- Python `doc.metadata.get(k)`: first binding of the key, if any. -/
def metaLookup (d : Document) (k : String) : Option PyVal :=
  (d.metadata.find? (fun kv => kv.1 == k)).map (fun kv => kv.2)

/-! ## TypeDetector (`SmartTextSplitter.detect_document_type`) -/

def academicKeywords : List String :=
  ["abstract", "résumé", "introduction", "conclusion", "références", "bibliographie"]

def technicalKeywords : List String :=
  ["api", "fonction", "class", "def ", "import", "documentation", "manuel"]

def legalKeywords : List String :=
  ["article", "clause", "alinéa", "considérant", "attendu", "arrêté"]

/-- Count of keywords from one table that occur (as substrings) in the
lower-cased text: `sum(1 for keyword in kws if keyword in text_lower)`. -/
def keywordScore (textLower : String) (kws : List String) : ℕ :=
  (kws.filter (fun k => strContains textLower k)).length

def academicScore (text : String) : ℕ := keywordScore (pyLower text) academicKeywords

def technicalScore (text : String) : ℕ := keywordScore (pyLower text) technicalKeywords

def legalScore (text : String) : ℕ := keywordScore (pyLower text) legalKeywords

/-- `SmartTextSplitter.detect_document_type` (text_splitter.py lines 19-46).
Python `max(scores, key=scores.get)` over the dict built in insertion order
academic, technical, legal returns the first key attaining the maximum. -/
def detectDocumentType (text : String) : String :=
  let a := academicScore text
  let t := technicalScore text
  let l := legalScore text
  let maxScore := max a (max t l)
  if 2 ≤ maxScore then
    if a = maxScore then "academic"
    else if t = maxScore then "technical"
    else "legal"
  else "default"

/-- Separator tables of `SmartTextSplitter.__init__`, selected by
`create_splitter` via `self.separators.get(document_type, default)`. -/
def separatorsFor (docType : String) : List String :=
  if docType = "academic" then ["\n\n", "\n", ". ", "; ", ", ", " ", ""]
  else if docType = "technical" then ["\n\n", "\n", ".\n", ". ", ":\n", ": ", " ", ""]
  else if docType = "legal" then ["\n\n", "\n", ". ", "; ", " - ", " ", ""]
  else ["\n\n", "\n", ". ", "! ", "? ", " ", ""]

/-! ## Splitter preprocessing (`SmartTextSplitter._preprocess_text`)

The Python regex substitutions are library builtins; each is modelled as a
fuel-indexed character scanner (fuel = input length, always sufficient since
every step consumes at least one character). -/

/-- Modelled from the spec: the regex builtin behind
`re.sub(r"\s+", " ", text)` — collapse each whitespace run to one space. -/
def collapseWsGo : ℕ → List Char → List Char
  | 0, l => l
  | _ + 1, [] => []
  | f + 1, c :: cs =>
    if isSpaceCh c then ' ' :: collapseWsGo f (cs.dropWhile isSpaceCh)
    else c :: collapseWsGo f cs

def collapseWs (l : List Char) : List Char := collapseWsGo l.length l

/-- Suffix of a whitespace span strictly after its last newline. -/
def afterLastNl (ws : List Char) : List Char :=
  (ws.reverse.takeWhile (fun c => c != '\n')).reverse

/-- Modelled from the spec: the regex builtin behind
`re.sub(r"\n\s*\n", "\n\n", text)` — normalize blank-line runs. -/
def normBlankGo : ℕ → List Char → List Char
  | 0, l => l
  | _ + 1, [] => []
  | f + 1, c :: cs =>
    if c = '\n' then
      let ws := cs.takeWhile isSpaceCh
      if ws.contains '\n' then
        '\n' :: '\n' :: normBlankGo f (afterLastNl ws ++ cs.drop ws.length)
      else c :: normBlankGo f cs
    else c :: normBlankGo f cs

def normBlank (l : List Char) : List Char := normBlankGo l.length l

/-- Modelled from the spec: the regex builtin behind
`re.sub(r"([.!?])\s*([A-Z])", r"\1\n\2", text)` — insert a line break
after sentence-ending punctuation followed by a capital letter. -/
def sentenceBreakGo : ℕ → List Char → List Char
  | 0, l => l
  | _ + 1, [] => []
  | f + 1, c :: cs =>
    if c = '.' ∨ c = '!' ∨ c = '?' then
      let ws := cs.takeWhile isSpaceCh
      match cs.drop ws.length with
      | d :: ds =>
        if 'A' ≤ d ∧ d ≤ 'Z' then c :: '\n' :: d :: sentenceBreakGo f ds
        else c :: sentenceBreakGo f cs
      | [] => c :: sentenceBreakGo f cs
    else c :: sentenceBreakGo f cs

def sentenceBreak (l : List Char) : List Char := sentenceBreakGo l.length l

/-- `SmartTextSplitter._preprocess_text` (text_splitter.py lines 128-139). -/
def preprocessText (s : String) : String :=
  String.mk (stripChars (sentenceBreak (normBlank (collapseWs s.data))))

/-! ## Recursive splitting

`RecursiveCharacterTextSplitter` comes from the langchain library and is not
part of this repository; it is modelled from the spec (§4.2 step 3). -/

/-- Split a character list at every occurrence of a non-empty separator,
keeping each separator at the head of the piece it precedes
(langchain `keep_separator=True`). Fuel = length of the remaining input. -/
def splitKeepSepGo (sep : List Char) : ℕ → List Char → List Char → List (List Char)
  | 0, acc, rest => [acc.reverse ++ rest]
  | _ + 1, acc, [] => [acc.reverse]
  | f + 1, acc, c :: cs =>
    if isPrefixCh sep (c :: cs) ∧ acc ≠ [] ∧ sep ≠ [] then
      acc.reverse :: splitKeepSepGo sep f sep.reverse ((c :: cs).drop sep.length)
    else splitKeepSepGo sep f (c :: acc) cs

def splitKeepSep (sep : String) (text : String) : List String :=
  (splitKeepSepGo sep.data text.data.length [] text.data).map String.mk

/-- Modelled from the spec: greedy accumulation of adjacent segments into
chunks of at most `chunkSize` characters, carrying the trailing `overlap`
characters of a flushed chunk into the next one (§4.2 step 3). -/
def mergeGo (chunkSize overlap : ℕ) : List Char → List String → List String
  | cur, [] => if cur.isEmpty then [] else [String.mk cur]
  | cur, s :: rest =>
    if cur.length + s.data.length ≤ chunkSize ∨ cur.isEmpty then
      mergeGo chunkSize overlap (cur ++ s.data) rest
    else
      String.mk cur :: mergeGo chunkSize overlap (cur.drop (cur.length - overlap) ++ s.data) rest

def mergeWithOverlap (chunkSize overlap : ℕ) (segs : List String) : List String :=
  mergeGo chunkSize overlap [] segs

/-- Modelled from the spec: langchain `RecursiveCharacterTextSplitter.split_text`
(§4.2 step 3) — recursively split on the first applicable separator of the
ordered list, recurse with the remaining separators on oversized pieces, and
merge small pieces back into chunks of at most `chunkSize` with overlap.
The empty-string separator (last resort) splits into single characters. -/
def recursiveSplitText (chunkSize overlap : ℕ) : List String → String → List String
  | [], text =>
    if text.data.length ≤ chunkSize then
      (if text.data.isEmpty then [] else [text])
    else [text]
  | s :: rest, text =>
    if text.data.length ≤ chunkSize then
      (if text.data.isEmpty then [] else [text])
    else
      let pieces :=
        if s.data.isEmpty then text.data.map (fun c => String.mk [c])
        else splitKeepSep s text
      let subChunks := (pieces.map (fun p =>
        if p.data.length ≤ chunkSize then [p]
        else recursiveSplitText chunkSize overlap rest p)).flatten
      mergeWithOverlap chunkSize overlap subChunks

/-! ## Chunk post-cleaning (`SmartTextSplitter._clean_chunk`) -/

/-- Modelled from the spec: the regex builtin behind
`re.sub(r"\n\s*\n\s*\n", "\n\n", chunk)` — collapse triple blank lines. -/
def collapseTripleGo : ℕ → List Char → List Char
  | 0, l => l
  | _ + 1, [] => []
  | f + 1, c :: cs =>
    if c = '\n' then
      let ws := cs.takeWhile isSpaceCh
      if 2 ≤ ws.count '\n' then
        '\n' :: '\n' :: collapseTripleGo f (afterLastNl ws ++ cs.drop ws.length)
      else c :: collapseTripleGo f cs
    else c :: collapseTripleGo f cs

def collapseTriple (l : List Char) : List Char := collapseTripleGo l.length l

/-- `SmartTextSplitter._clean_chunk` (text_splitter.py lines 141-152):
strip, collapse triple blank lines, drop a leading separator run
(`^[.!?;:,\s]+`). -/
def cleanChunk (s : String) : String :=
  let l := collapseTriple (stripChars s.data)
  String.mk (l.dropWhile (fun c =>
    (c == '.') || (c == '!') || (c == '?') || (c == ';') || (c == ':') ||
    (c == ',') || isSpaceCh c))

/-- `SmartTextSplitter.smart_split` (text_splitter.py lines 69-93) with the
default `preserve_structure=True`: detect type, preprocess, split with the
type-specific separators, clean each chunk, keep the non-blank ones. -/
def smartSplit (text : String) (chunkSize chunkOverlap : ℕ) : List String :=
  let docType := detectDocumentType text
  let pre := preprocessText text
  let chunks := recursiveSplitText chunkSize chunkOverlap (separatorsFor docType) pre
  (chunks.map cleanChunk).filter (fun c => !(pyStrip c).data.isEmpty)

/-! ## Keyword extraction (`SmartTextSplitter._extract_keywords`) -/

/-- Stop-word set of `_extract_keywords` (text_splitter.py lines 169-173). -/
def stopWords : List String :=
  ["le", "la", "les", "un", "une", "des", "de", "du", "et", "ou", "à", "dans",
   "sur", "pour", "par", "avec", "sans", "sous", "que", "qui", "quoi", "dont",
   "où", "ce", "cette", "ces", "est", "sont",
   "the", "a", "an", "and", "or", "but", "in", "on", "at", "to", "for", "of",
   "with", "by", "is", "are"]

/-- Modelled from the spec: the regex builtin behind
`re.findall(r"\b[a-zA-Z...]{3,}\b", chunk.lower())` — maximal word-character
runs. A run counts as a word iff it is all letters and has length at least 3
(a digit or underscore inside the run blocks the word-boundary match). -/
def wordRunsGo : ℕ → List Char → List (List Char)
  | 0, _ => []
  | _ + 1, [] => []
  | f + 1, c :: cs =>
    if isWordCh c then
      (c :: cs.takeWhile isWordCh) :: wordRunsGo f (cs.drop (cs.takeWhile isWordCh).length)
    else wordRunsGo f cs

def extractWords (chunk : String) : List String :=
  (((wordRunsGo (pyLower chunk).data.length (pyLower chunk).data).filter
    (fun w => decide (3 ≤ w.length) && w.all isLetterFr)).map String.mk)

/-- Stable descending insertion by count (models Python stable
`sorted(..., key=lambda x: x[1], reverse=True)` over dict items that are in
first-seen order). -/
def insertDesc (cnt : String → ℕ) : List String → String → List String
  | [], w => [w]
  | x :: xs, w =>
    if cnt x < cnt w then w :: x :: xs else x :: insertDesc cnt xs w

/-- `SmartTextSplitter._extract_keywords` (text_splitter.py lines 166-186)
with the default `max_keywords=5`: tokenize, drop stop words and short words,
count frequencies in first-seen order, sort stably by descending frequency,
take the top 5. -/
def extractKeywords (chunk : String) : List String :=
  let filtered := (extractWords chunk).filter
    (fun w => !(stopWords.contains w) && decide (2 < w.data.length))
  let distinct := filtered.foldl (fun acc w => if acc.contains w then acc else acc ++ [w]) []
  let cnt := fun w => (filtered.filter (fun x => x == w)).length
  (distinct.foldl (insertDesc cnt) []).take 5

/-! ## Structure markers (`SmartTextSplitter._has_structure_markers`) -/

/-- Split into lines at newlines (the line starts at which `re.MULTILINE`
anchors `^`). -/
def splitOnNl (l : List Char) : List (List Char) :=
  l.foldr (fun c acc =>
    match acc with
    | [] => [[c]]
    | cur :: rest => if c = '\n' then [] :: cur :: rest else (c :: cur) :: rest) [[]]

/-- Modelled from the spec: the regex builtins behind the five patterns of
`_has_structure_markers`, each anchored at a line start — digit-dot
numbering, capital-dot section, bullet dash, bullet asterisk, and a
word-colon label. -/
def lineHasMarker (l : List Char) : Bool :=
  (match l.drop (l.takeWhile isDigitCh).length with
   | '.' :: _ => !(l.takeWhile isDigitCh).isEmpty
   | _ => false) ||
  (match l with
   | a :: '.' :: _ => decide ('A' ≤ a ∧ a ≤ 'Z')
   | _ => false) ||
  (match l with
   | '-' :: c :: _ => isSpaceCh c
   | _ => false) ||
  (match l with
   | '*' :: c :: _ => isSpaceCh c
   | _ => false) ||
  (match l.drop (l.takeWhile isWordCh).length with
   | ':' :: c :: _ => !(l.takeWhile isWordCh).isEmpty && isSpaceCh c
   | _ => false)

def hasStructureMarkers (chunk : String) : Bool :=
  (splitOnNl chunk.data).any lineHasMarker

/-! ## Document assembly (`SmartTextSplitter.split_documents_with_metadata`) -/

/-- Python `enumerate` starting at `k`. -/
def enumFrom (k : ℕ) : List String → List (ℕ × String)
  | [] => []
  | c :: cs => (k, c) :: enumFrom (k + 1) cs

/-- Metadata dictionary built for chunk number `i` of `n` in
`split_documents_with_metadata` (text_splitter.py lines 106-124); the
`keywords` entry is added only when the extracted list is non-empty. -/
def chunkMetaPairs (filename docType : String) (n i : ℕ) (chunk : String) :
    List (String × PyVal) :=
  [("filename", .str filename),
   ("chunk_id", .int i),
   ("total_chunks", .int n),
   ("document_type", .str docType),
   ("chunk_size", .int chunk.data.length),
   ("chunk_position",
    .str (if i = 0 then "start" else if i = n - 1 then "end" else "middle")),
   ("contains_structure", .bool (hasStructureMarkers chunk))]
  ++ (if (extractKeywords chunk).isEmpty then []
      else [("keywords", .list ((extractKeywords chunk).map PyVal.str))])

/-- `SmartTextSplitter.split_documents_with_metadata`
(text_splitter.py lines 95-126). -/
def splitDocumentsWithMetadata (text filename : String) (chunkSize chunkOverlap : ℕ) :
    List Document :=
  let chunks := smartSplit text chunkSize chunkOverlap
  let docType := detectDocumentType text
  (enumFrom 0 chunks).map (fun ic =>
    { page_content := ic.2,
      metadata := chunkMetaPairs filename docType chunks.length ic.1 ic.2 })

/-! ## EmbeddingService (`HuggingFaceAPIEmbeddings`) -/

/-- Dimension fixed in `HuggingFaceAPIEmbeddings.__init__` for
all-MiniLM-L6-v2. -/
def embeddingDimension : ℕ := 384

/-- Outcome of one attempted POST to the HuggingFace inference endpoint, as
discriminated by `_call_api`: a 200 whose JSON body is a list of embeddings,
a 200 whose body is a single flat embedding (wrapped by the caller), a 200
with an empty list body (indexing it raises, landing in the except branch),
a 503, any other status, or a raised network exception. -/
inductive ApiAttempt where
  | okMany (vecs : List (List ℚ))
  | okOne (vec : List ℚ)
  | okEmptyBody
  | busy
  | httpErr
  | raised

/-- An attempt outcome that returns usable embeddings to the caller. -/
def ApiAttempt.isOk : ApiAttempt → Bool
  | .okMany _ => true
  | .okOne _ => true
  | _ => false

/-- `HuggingFaceAPIEmbeddings._generate_fake_embeddings`
(vectorstore.py lines 104-111): one vector per text, entry `j` equal to
`0.1 + (hash(text) % 1000) / 10000 + j * 0.001`. The Python `hash` builtin
is modelled as an arbitrary function `h : String → Int`; `%` is the Python
modulo (Lean `Int.emod`, non-negative for a positive modulus). -/
def fakeEmbedding (h : String → Int) (dim : ℕ) (text : String) : List ℚ :=
  (List.range dim).map (fun (j : ℕ) =>
    (1 : ℚ) / 10 + ((h text).emod 1000 : ℚ) / 10000 + (j : ℚ) / 1000)

def fakeEmbeddings (h : String → Int) (dim : ℕ) (texts : List String) : List (List ℚ) :=
  texts.map (fakeEmbedding h dim)

/-- Result of one `_call_api` call: the returned vectors, whether they came
from the fallback generator, the backoff sleeps performed (in seconds, in
order), and how many POST attempts were actually made. -/
structure CallResult where
  vecs : List (List ℚ)
  fromFallback : Bool
  sleeps : List ℕ
  attemptsMade : ℕ

/-- Retry loop of `HuggingFaceAPIEmbeddings._call_api`
(vectorstore.py lines 64-102). `resp k` is the outcome of the POST on
attempt number `k` (0-based); `n` is the number of loop iterations left,
`a` the current attempt index, `m` the `max_retries` bound:
- 200 with a usable body returns it (a flat body is wrapped in a list);
- 503 sleeps `2 ^ attempt` seconds and retries;
- any other status breaks out of the loop at once;
- a raised exception (including the empty-body index error) sleeps 1 second
  and retries while `attempt < max_retries - 1`, else breaks.
Falling out of the loop reaches the fallback generator. -/
def callApiFrom (h : String → Int) (texts : List String) (resp : ℕ → ApiAttempt)
    (m : ℕ) : ℕ → ℕ → List ℕ → CallResult
  | 0, a, sleeps => ⟨fakeEmbeddings h embeddingDimension texts, true, sleeps, a⟩
  | n + 1, a, sleeps =>
    match resp a with
    | .okMany vecs => ⟨vecs, false, sleeps, a + 1⟩
    | .okOne vec => ⟨[vec], false, sleeps, a + 1⟩
    | .busy => callApiFrom h texts resp m n (a + 1) (sleeps ++ [2 ^ a])
    | .httpErr => ⟨fakeEmbeddings h embeddingDimension texts, true, sleeps, a + 1⟩
    | .okEmptyBody =>
      if a < m - 1 then callApiFrom h texts resp m n (a + 1) (sleeps ++ [1])
      else ⟨fakeEmbeddings h embeddingDimension texts, true, sleeps, a + 1⟩
    | .raised =>
      if a < m - 1 then callApiFrom h texts resp m n (a + 1) (sleeps ++ [1])
      else ⟨fakeEmbeddings h embeddingDimension texts, true, sleeps, a + 1⟩

/-- `HuggingFaceAPIEmbeddings._call_api` with its default `max_retries=3`. -/
def callApi (h : String → Int) (texts : List String) (resp : ℕ → ApiAttempt) :
    CallResult :=
  callApiFrom h texts resp 3 3 0 []

/-- `HuggingFaceAPIEmbeddings.embed_documents` (vectorstore.py lines 113-124):
process the texts in batches of 10, one `_call_api` call per batch
(`oracle b` is the attempt oracle of batch number `b`), concatenating the
returned vectors. The first argument is fuel (the initial text count, always
sufficient since every step consumes at least one text). -/
def embedDocumentsGo (h : String → Int) (oracle : ℕ → ℕ → ApiAttempt) :
    ℕ → List String → ℕ → List (List ℚ)
  | 0, _, _ => []
  | _ + 1, [], _ => []
  | f + 1, t :: ts, b =>
    (callApi h ((t :: ts).take 10) (oracle b)).vecs ++
      embedDocumentsGo h oracle f ((t :: ts).drop 10) (b + 1)

def embedDocuments (h : String → Int) (oracle : ℕ → ℕ → ApiAttempt)
    (texts : List String) : List (List ℚ) :=
  embedDocumentsGo h oracle texts.length texts 0

/-- `HuggingFaceAPIEmbeddings.embed_query` (vectorstore.py lines 126-129):
a single `_call_api` on the singleton batch; if the returned list were empty
the fallback generator would be consulted directly. -/
def embedQuery (h : String → Int) (resp : ℕ → ApiAttempt) (text : String) :
    List ℚ :=
  match (callApi h [text] resp).vecs with
  | v :: _ => v
  | [] => fakeEmbedding h embeddingDimension text

/-- Every attempt of this oracle fails (no 200 with a usable body ever
arrives): the remote endpoint is effectively unreachable. -/
def allFailing (resp : ℕ → ApiAttempt) : Prop :=
  ∀ k, (resp k).isOk = false

/-! ## Input validators (`InputValidator`, src/utils/validators.py) -/

/-- `InputValidator.validate_chunk_size` (validators.py lines 108-121);
the argument is an `int` by construction here, so only the range checks
remain. -/
def validateChunkSize (cs : ℕ) : Bool × Option String :=
  if cs < 100 then (false, some "Taille des chunks trop petite (minimum 100)")
  else if 4000 < cs then (false, some "Taille des chunks trop grande (maximum 4000)")
  else (true, Option.none)

/-- Literal substrings matched (case-insensitively) by the suspicious-pattern
regexes of `validate_question`. -/
def suspiciousPatterns : List String := ["<script", "javascript:", "eval(", "exec("]

/-- `InputValidator.validate_question` (validators.py lines 140-167). -/
def validateQuestion (q : String) : Bool × Option String :=
  if (pyStrip q).data.isEmpty then (false, some "Question vide")
  else
    let q2 := pyStrip q
    if q2.data.length < 3 then
      (false, some "Question trop courte (minimum 3 caractères)")
    else if 1000 < q2.data.length then
      (false, some "Question trop longue (maximum 1000 caractères)")
    else if suspiciousPatterns.any (fun p => strContains (pyLower q2) p) then
      (false, some "Question contient des éléments suspects")
    else (true, Option.none)

/-! ## VectorStore (`EnhancedVectorStoreManager`)

The ChromaDB client is external: the persistent collection is modelled as
the list of documents written to it, and the success of
`initialize_vectorstore` (which depends on the filesystem and the chromadb
library) as a boolean `openOk`. The embeddings attribute is always set by
the constructor (its failure paths are absorbed internally), so the
`self.embeddings` guard cannot fire and is not modelled. -/

structure StoreState where
  opened : Bool
  collection : List Document

/-- `EnhancedVectorStoreManager.add_documents_enhanced`
(vectorstore.py lines 251-306): validate the chunk size, auto-open the
store if needed (raising when that fails), split, raise when no chunks
survive, sanitize metadata, and only then append to the collection.
The returned state carries the (possibly auto-opened) store; a raised
`ValueError` is the `Except.error` case. -/
def addDocumentsEnhanced (openOk : Bool) (st : StoreState) (text filename : String)
    (cs co : ℕ) : Except String ℕ × StoreState :=
  if (validateChunkSize cs).1 = false then
    (.error "Chunk size invalide", st)
  else
    let st1 : StoreState := if st.opened then st else { st with opened := openOk }
    if st1.opened = false then
      (.error "Echec initialisation du VectorStore", st1)
    else
      let docs := splitDocumentsWithMetadata text filename cs co
      if docs.isEmpty then
        (.error "Aucun document généré lors du découpage", st1)
      else
        (.ok docs.length,
         { st1 with collection := st1.collection ++ filterComplexMetadata docs })

/-- Outcome of `self.vectorstore.similarity_search(query, k)`, an external
ChromaDB call: either a list of documents (empty on an empty collection) or
a raised exception. -/
inductive SimOutcome where
  | ok (docs : List Document)
  | raised (msg : String)

/-- Python `doc.metadata.get(k, default)`. -/
def metaGetD (d : Document) (k : String) (dflt : PyVal) : PyVal :=
  match metaLookup d k with
  | some v => v
  | _ => dflt

/-- One enriched entry of `search_with_metadata`. -/
structure SearchResult where
  content : String
  metadata : List (String × PyVal)
  relevance_score : Option ℚ
  position : PyVal
  total_chunks : PyVal
  chunk_id : PyVal
  has_structure : PyVal
  keywords : PyVal

/-- Result enrichment loop of `search_with_metadata` (vectorstore.py lines
377-391); langchain documents carry no `relevance_score` attribute, so
`getattr(doc, "relevance_score", None)` is `None`. -/
def enrichResult (d : Document) : SearchResult :=
  { content := d.page_content,
    metadata := d.metadata,
    relevance_score := Option.none,
    position := metaGetD d "chunk_position" (.str "unknown"),
    total_chunks := metaGetD d "total_chunks" (.int 0),
    chunk_id := metaGetD d "chunk_id" (.int 0),
    has_structure := metaGetD d "contains_structure" (.bool false),
    keywords := metaGetD d "keywords" (.list []) }

/-- `EnhancedVectorStoreManager.search_with_metadata`
(vectorstore.py lines 350-395): an invalid query raises (`Except.error`);
a failed auto-open returns an empty list; a raised similarity lookup is
caught and returns an empty list; otherwise the hits are enriched.
`k` is forwarded to the similarity lookup, which the `sim` oracle models. -/
def searchWithMetadata (openOk : Bool) (sim : SimOutcome) (st : StoreState)
    (query : String) (_k : ℕ) : Except String (List SearchResult) × StoreState :=
  if (validateQuestion query).1 = false then (.error "Requête invalide", st)
  else
    let st1 : StoreState := if st.opened then st else { st with opened := openOk }
    if st1.opened = false then (.ok [], st1)
    else
      match sim with
      | .raised _ => (.ok [], st1)
      | .ok docs => (.ok (docs.map enrichResult), st1)

/-! ## PerformanceMonitor (src/utils/performance.py) -/

/-- `PerformanceMetrics` dataclass (performance.py lines 8-17); the
timestamp is not modelled (real time), the numeric readings are carried as
rationals supplied by the environment. -/
structure PerfMetrics where
  operation : String
  duration : ℚ
  memory_usage : ℚ
  cpu_usage : ℚ
  success : Bool
  error_message : Option String

/-- `PerformanceMonitor._add_metrics` (performance.py lines 73-80): append,
then truncate to the last `max_history` entries. Python
`history[-max_history:]` with `max_history = 0` is the whole list, so that
degenerate configuration never truncates. -/
def addMetrics (maxHistory : ℕ) (hist : List PerfMetrics) (m : PerfMetrics) :
    List PerfMetrics :=
  let h2 := hist ++ [m]
  if maxHistory < h2.length then
    (if maxHistory = 0 then h2 else h2.drop (h2.length - maxHistory))
  else h2

/-- `PerformanceMonitor.measure_performance` wrapper body (performance.py
lines 29-71): run the wrapped call (its result or raised exception is
`outcome`), read duration / memory delta / cpu from the environment (passed
here as parameters), record exactly one entry in the `finally` block, and
return the result or re-raise the exception unchanged. -/
def measurePerformance {α : Type} (maxHistory : ℕ) (op : String)
    (outcome : Except String α) (duration memory cpu : ℚ)
    (hist : List PerfMetrics) : Except String α × List PerfMetrics :=
  match outcome with
  | .ok a =>
    (.ok a, addMetrics maxHistory hist ⟨op, duration, memory, cpu, true, Option.none⟩)
  | .error e =>
    (.error e, addMetrics maxHistory hist ⟨op, duration, memory, cpu, false, some e⟩)

/-! ## Helper lemmas -/

/-- Sanitization always lands in the storable scalar kinds. -/
theorem sanitizeValue_isScalar (v : PyVal) : isScalar (sanitizeValue v) = true := by
  cases v <;> rfl

/-- Sanitization is the identity on values that are already storable. -/
theorem sanitizeValue_of_isScalar (v : PyVal) (h : isScalar v = true) :
    sanitizeValue v = v := by
  cases v <;> first | rfl | simp [isScalar] at h

theorem mapFst_sanitize (l : List (String × PyVal)) :
    (l.map (fun kv => (kv.1, sanitizeValue kv.2))).map Prod.fst = l.map Prod.fst := by
  induction l with
  | nil => rfl
  | cons kv t ih => simp [ih]

theorem forall2_sanitize (l : List (String × PyVal)) :
    List.Forall₂ (fun kv kv' : String × PyVal =>
      kv'.1 = kv.1 ∧ (isScalar kv.2 = true → kv'.2 = kv.2))
      l (l.map (fun kv => (kv.1, sanitizeValue kv.2))) := by
  induction l with
  | nil => simp
  | cons kv t ih =>
    exact List.Forall₂.cons ⟨rfl, fun h => sanitizeValue_of_isScalar _ h⟩ ih

/-! ## C8 — metadata sanitization at the storage boundary -/

/-- C8: for every chunk metadata map, `_filter_complex_metadata` maps every
value to one of the five storable scalar kinds; values already of those kinds
pass through unchanged, list values become a single comma-space-joined
string, dict values become a JSON-serialized string, and any other value
becomes its string form. -/
theorem metadata_sanitization_storage_types (docs : List Document) :
    (∀ d ∈ filterComplexMetadata docs, ∀ kv ∈ d.metadata, isScalar kv.2 = true) ∧
    (∀ v : PyVal, isScalar v = true → sanitizeValue v = v) ∧
    (∀ xs : List PyVal,
      sanitizeValue (PyVal.list xs) = PyVal.str (String.intercalate ", " (pyStrList xs))) ∧
    (∀ kvs : List (String × PyVal),
      sanitizeValue (PyVal.dict kvs) = PyVal.str (jsonDumps kvs)) ∧
    (∀ s : String, sanitizeValue (PyVal.other s) = PyVal.str (pyStr (PyVal.other s))) := by
  refine ⟨?_, fun v h => sanitizeValue_of_isScalar v h, fun xs => rfl, fun kvs => rfl,
    fun s => rfl⟩
  intro d hd kv hkv
  obtain ⟨d0, _, rfl⟩ := List.mem_map.1 hd
  obtain ⟨kv0, _, rfl⟩ := List.mem_map.1 hkv
  exact sanitizeValue_isScalar kv0.2

/-- Witness for C8 at a concrete metadata map: a scalar passes through and a
list value of the third conjunct is exercised. -/
theorem metadata_sanitization_storage_types_witness :
    isScalar (PyVal.int 3) = true ∧ sanitizeValue (PyVal.int 3) = PyVal.int 3 ∧
    sanitizeValue (PyVal.list [PyVal.str "a", PyVal.str "b"])
      = PyVal.str (String.intercalate ", " (pyStrList [PyVal.str "a", PyVal.str "b"])) :=
  ⟨rfl, (metadata_sanitization_storage_types []).2.1 _ rfl,
    (metadata_sanitization_storage_types []).2.2.1 _⟩

/-! ## C10 — sanitization is a frame: content and keys untouched, scalars
passed through -/

/-- C10: `_filter_complex_metadata` only changes non-scalar metadata values:
documents correspond one to one, each keeps its page content, its metadata
key sequence, and every already-scalar value unchanged. -/
theorem filter_metadata_frame (docs : List Document) :
    List.Forall₂ (fun d d' : Document =>
      d'.page_content = d.page_content ∧
      d'.metadata.map Prod.fst = d.metadata.map Prod.fst ∧
      List.Forall₂ (fun kv kv' : String × PyVal =>
        kv'.1 = kv.1 ∧ (isScalar kv.2 = true → kv'.2 = kv.2))
        d.metadata d'.metadata)
      docs (filterComplexMetadata docs) := by
  induction docs with
  | nil => simp [filterComplexMetadata]
  | cons d ds ih =>
    exact List.Forall₂.cons ⟨rfl, mapFst_sanitize _, forall2_sanitize _⟩ ih

/-- Witness for C10 at a concrete document list containing a scalar and a
non-scalar metadata value. -/
theorem filter_metadata_frame_witness :
    List.Forall₂ (fun d d' : Document =>
      d'.page_content = d.page_content ∧
      d'.metadata.map Prod.fst = d.metadata.map Prod.fst ∧
      List.Forall₂ (fun kv kv' : String × PyVal =>
        kv'.1 = kv.1 ∧ (isScalar kv.2 = true → kv'.2 = kv.2))
        d.metadata d'.metadata)
      [⟨"content", [("chunk_id", PyVal.int 0), ("keywords", PyVal.list [PyVal.str "a"])]⟩]
      (filterComplexMetadata
        [⟨"content", [("chunk_id", PyVal.int 0), ("keywords", PyVal.list [PyVal.str "a"])]⟩]) :=
  filter_metadata_frame _

/-! ## C9 — instrumentation records once, re-raises, bounded history -/

theorem addMetrics_eq (maxH : ℕ) (hpos : 0 < maxH) (hist : List PerfMetrics)
    (m : PerfMetrics) :
    addMetrics maxH hist m = (hist ++ [m]).drop (hist.length + 1 - maxH) := by
  unfold addMetrics
  by_cases hlt : maxH < (hist ++ [m]).length
  · rw [if_pos hlt, if_neg (by omega)]
    congr 1
    simp
  · rw [if_neg hlt]
    simp only [List.length_append, List.length_cons, List.length_nil] at hlt
    rw [show hist.length + 1 - maxH = 0 by omega, List.drop_zero]

/-- C9: the `measure_performance` wrapper records exactly one entry on every
exit path (success flag true on success, false with the error message on
failure), returns the wrapped outcome unchanged (re-raising failures), and
after recording the history never exceeds the configured cap. -/
theorem measure_performance_records_and_reraises {α : Type} (maxH : ℕ) (op : String)
    (outcome : Except String α) (dur mem cpu : ℚ) (hist : List PerfMetrics)
    (hpos : 0 < maxH) :
    (measurePerformance maxH op outcome dur mem cpu hist).1 = outcome ∧
    ∃ entry : PerfMetrics,
      entry.operation = op ∧
      (entry.success = true ↔ ∃ a, outcome = .ok a) ∧
      (∀ e, outcome = .error e → entry.error_message = some e) ∧
      (measurePerformance maxH op outcome dur mem cpu hist).2
        = (hist ++ [entry]).drop (hist.length + 1 - maxH) ∧
      (measurePerformance maxH op outcome dur mem cpu hist).2.length ≤ maxH := by
  have hlen : ∀ m : PerfMetrics,
      ((hist ++ [m]).drop (hist.length + 1 - maxH)).length ≤ maxH := by
    intro m
    simp only [List.length_drop, List.length_append, List.length_cons, List.length_nil]
    omega
  cases outcome with
  | ok a =>
    refine ⟨rfl, ⟨op, dur, mem, cpu, true, Option.none⟩, rfl, ?_, ?_, ?_, ?_⟩
    · exact ⟨fun _ => ⟨a, rfl⟩, fun _ => rfl⟩
    · intro e he; cases he
    · exact addMetrics_eq maxH hpos hist _
    · rw [show (measurePerformance maxH op (Except.ok a) dur mem cpu hist).2
          = addMetrics maxH hist ⟨op, dur, mem, cpu, true, Option.none⟩ from rfl,
        addMetrics_eq maxH hpos hist _]
      exact hlen _
  | error e =>
    refine ⟨rfl, ⟨op, dur, mem, cpu, false, some e⟩, rfl, ?_, ?_, ?_, ?_⟩
    · constructor
      · intro h; cases h
      · rintro ⟨a, ha⟩; cases ha
    · intro e' he'; cases he'; rfl
    · exact addMetrics_eq maxH hpos hist _
    · rw [show (measurePerformance maxH op (Except.error e : Except String α) dur mem cpu hist).2
          = addMetrics maxH hist ⟨op, dur, mem, cpu, false, some e⟩ from rfl,
        addMetrics_eq maxH hpos hist _]
      exact hlen _

/-- Witness for C9: a failing wrapped call with the default cap 100 on an
empty history re-raises the original error. -/
theorem measure_performance_witness :
    (measurePerformance 100 "add_documents" (Except.error "boom" : Except String ℕ)
      0 0 0 []).1 = Except.error "boom" :=
  (measure_performance_records_and_reraises 100 "add_documents"
    (Except.error "boom" : Except String ℕ) 0 0 0 [] (by decide)).1

/-! ## C2 — document-type detection -/

/-- C2 counterexample: a text scoring 2 academic and 2 technical keyword
hits (a tie at the maximum, which reaches the threshold) is classified
`academic`, not `default`: Python `max(scores, key=scores.get)` resolves
ties to the first key in insertion order, never to `default`. -/
theorem detect_tie_returns_academic :
    academicScore "abstract introduction api import" = 2 ∧
    technicalScore "abstract introduction api import" = 2 ∧
    legalScore "abstract introduction api import" = 0 ∧
    detectDocumentType "abstract introduction api import" = "academic" ∧
    "academic" ≠ "default" := by
  refine ⟨by decide, by decide, by decide, by decide, by decide⟩

/-- C2 (amended): `detect_document_type` returns `default` when the maximal
keyword-hit count is below 2; otherwise it returns the first type in the
fixed order academic, technical, legal attaining that maximum (so ties
resolve to the earliest-listed tied type, not to `default`). -/
theorem detect_document_type_characterization (text : String) :
    (max (academicScore text) (max (technicalScore text) (legalScore text)) < 2 →
      detectDocumentType text = "default") ∧
    (2 ≤ academicScore text ∧ technicalScore text ≤ academicScore text ∧
        legalScore text ≤ academicScore text →
      detectDocumentType text = "academic") ∧
    (2 ≤ technicalScore text ∧ academicScore text < technicalScore text ∧
        legalScore text ≤ technicalScore text →
      detectDocumentType text = "technical") ∧
    (2 ≤ legalScore text ∧ academicScore text < legalScore text ∧
        technicalScore text < legalScore text →
      detectDocumentType text = "legal") := by
  unfold detectDocumentType
  refine ⟨fun h => ?_, fun h => ?_, fun h => ?_, fun h => ?_⟩ <;>
    simp only [] <;> split_ifs <;> first | rfl | omega

/-- Witness for C2 at concrete texts exercising the threshold branch and the
clear-majority branch. -/
theorem detect_document_type_characterization_witness :
    max (academicScore "hello") (max (technicalScore "hello") (legalScore "hello")) < 2 ∧
    detectDocumentType "hello" = "default" ∧
    2 ≤ legalScore "article 1, clause 2, alinéa 3" ∧
    academicScore "article 1, clause 2, alinéa 3" < legalScore "article 1, clause 2, alinéa 3" ∧
    technicalScore "article 1, clause 2, alinéa 3" < legalScore "article 1, clause 2, alinéa 3" ∧
    detectDocumentType "article 1, clause 2, alinéa 3" = "legal" := by
  refine ⟨by decide, (detect_document_type_characterization "hello").1 (by decide),
    by decide, by decide, by decide,
    (detect_document_type_characterization "article 1, clause 2, alinéa 3").2.2.2
      ⟨by decide, by decide, by decide⟩⟩

/-! ## Embedding fallback lemmas -/

/-- A fallback vector always has exactly the configured dimension, 384. -/
theorem fakeEmbedding_length (h : String → Int) (text : String) :
    (fakeEmbedding h embeddingDimension text).length = 384 := by
  unfold fakeEmbedding
  rw [List.length_map, List.length_range]
  rfl

theorem callApiFrom_allFailing (h : String → Int) (texts : List String)
    (resp : ℕ → ApiAttempt) (m : ℕ) (hf : allFailing resp) :
    ∀ (n a : ℕ) (sleeps : List ℕ),
      (callApiFrom h texts resp m n a sleeps).vecs
        = fakeEmbeddings h embeddingDimension texts ∧
      (callApiFrom h texts resp m n a sleeps).fromFallback = true := by
  intro n
  induction n with
  | zero => intro a sleeps; exact ⟨rfl, rfl⟩
  | succ n ih =>
    intro a sleeps
    have hk := hf a
    cases hr : resp a with
    | okMany v => rw [hr] at hk; simp [ApiAttempt.isOk] at hk
    | okOne v => rw [hr] at hk; simp [ApiAttempt.isOk] at hk
    | busy => simp only [callApiFrom, hr]; exact ih _ _
    | httpErr => simp only [callApiFrom, hr]; exact ⟨trivial, trivial⟩
    | okEmptyBody =>
      simp only [callApiFrom, hr]
      by_cases hc : a < m - 1
      · rw [if_pos hc]; exact ih _ _
      · rw [if_neg hc]; exact ⟨rfl, rfl⟩
    | raised =>
      simp only [callApiFrom, hr]
      by_cases hc : a < m - 1
      · rw [if_pos hc]; exact ih _ _
      · rw [if_neg hc]; exact ⟨rfl, rfl⟩

theorem embedQuery_allFailing (h : String → Int) (resp : ℕ → ApiAttempt)
    (text : String) (hf : allFailing resp) :
    embedQuery h resp text = fakeEmbedding h embeddingDimension text := by
  unfold embedQuery callApi
  rw [(callApiFrom_allFailing h [text] resp 3 hf 3 0 []).1]
  rfl

theorem embedDocumentsGo_allFailing (h : String → Int) (oracle : ℕ → ℕ → ApiAttempt)
    (hf : ∀ b k, (oracle b k).isOk = false) :
    ∀ (f : ℕ) (texts : List String) (b : ℕ), texts.length ≤ f →
      embedDocumentsGo h oracle f texts b = fakeEmbeddings h embeddingDimension texts := by
  intro f
  induction f with
  | zero =>
    intro texts b hlen
    cases texts with
    | nil => rfl
    | cons t ts => simp at hlen
  | succ f ih =>
    intro texts b hlen
    cases texts with
    | nil => rfl
    | cons t ts =>
      simp only [embedDocumentsGo, callApi]
      rw [(callApiFrom_allFailing h ((t :: ts).take 10) (oracle b) 3
            (fun k => hf b k) 3 0 []).1,
        ih ((t :: ts).drop 10) (b + 1) (by simp at hlen ⊢; omega)]
      simp only [fakeEmbeddings, List.map_take, List.map_drop]
      rw [List.take_append_drop]

/-! ## C3 — fallback embedding is deterministic in the input text -/

/-- C3: while every remote attempt fails (whatever the failure mode on each
attempt, and however it differs between the two calls), `embed_query`
returns the same vector both times, namely the fallback vector, which is a
function of the input text (and the process hash function) alone. -/
theorem embed_query_fallback_deterministic (h : String → Int)
    (resp1 resp2 : ℕ → ApiAttempt) (text : String)
    (h1 : allFailing resp1) (h2 : allFailing resp2) :
    embedQuery h resp1 text = embedQuery h resp2 text ∧
    embedQuery h resp1 text = fakeEmbedding h embeddingDimension text := by
  rw [embedQuery_allFailing h resp1 text h1, embedQuery_allFailing h resp2 text h2]
  exact ⟨rfl, rfl⟩

/-- Witness for C3: two concrete unreachable-endpoint runs with different
failure modes (all 503 versus all raised connections) agree on `"abc"`. -/
theorem embed_query_fallback_deterministic_witness :
    embedQuery (fun _ => 7) (fun _ => ApiAttempt.busy) "abc"
      = embedQuery (fun _ => 7) (fun _ => ApiAttempt.raised) "abc" :=
  (embed_query_fallback_deterministic (fun _ => 7)
    (fun _ => ApiAttempt.busy) (fun _ => ApiAttempt.raised) "abc"
    (fun _ => rfl) (fun _ => rfl)).1

/-! ## C4 — fallback vectors: one per text, fixed dimension 384 -/

/-- C4: when every remote call fails, `embed_documents` and `embed_query`
still return (no exception escapes `_call_api`, which is total here by
construction) exactly one vector per input text, each of length exactly 384
and hence never zero-length. -/
theorem embed_fallback_shape (h : String → Int) (oracle : ℕ → ℕ → ApiAttempt)
    (resp : ℕ → ApiAttempt) (texts : List String) (text : String)
    (horacle : ∀ b k, (oracle b k).isOk = false) (hresp : allFailing resp) :
    (embedDocuments h oracle texts).length = texts.length ∧
    (∀ v ∈ embedDocuments h oracle texts, v.length = 384) ∧
    (embedQuery h resp text).length = 384 := by
  have he : embedDocuments h oracle texts = fakeEmbeddings h embeddingDimension texts :=
    embedDocumentsGo_allFailing h oracle horacle texts.length texts 0 (le_refl _)
  refine ⟨?_, ?_, ?_⟩
  · rw [he]; simp [fakeEmbeddings]
  · intro v hv
    rw [he] at hv
    simp only [fakeEmbeddings, List.mem_map] at hv
    obtain ⟨t, _, rfl⟩ := hv
    rw [fakeEmbedding_length]
  · rw [embedQuery_allFailing h resp text hresp, fakeEmbedding_length]

/-- Witness for C4: an endpoint that always answers 503. -/
theorem embed_fallback_shape_witness :
    (embedDocuments (fun _ => 0) (fun _ _ => ApiAttempt.busy) ["a", "b"]).length = 2 ∧
    (embedQuery (fun _ => 0) (fun _ => ApiAttempt.busy) "a").length = 384 := by
  have h := embed_fallback_shape (fun _ => 0) (fun _ _ => ApiAttempt.busy)
    (fun _ => ApiAttempt.busy) ["a", "b"] "a" (fun _ _ => rfl) (fun _ => rfl)
  exact ⟨h.1, h.2.2⟩

/-! ## C5 — retry policy of `_call_api` -/

theorem callApiFrom_attempts_le (h : String → Int) (texts : List String)
    (resp : ℕ → ApiAttempt) (m : ℕ) :
    ∀ (n a : ℕ) (sleeps : List ℕ),
      (callApiFrom h texts resp m n a sleeps).attemptsMade ≤ a + n := by
  intro n
  induction n with
  | zero => intro a sleeps; simp [callApiFrom]
  | succ n ih =>
    intro a sleeps
    cases hr : resp a with
    | okMany v => simp only [callApiFrom, hr]; omega
    | okOne v => simp only [callApiFrom, hr]; omega
    | busy => simp only [callApiFrom, hr]; exact (ih _ _).trans (by omega)
    | httpErr => simp only [callApiFrom, hr]; omega
    | okEmptyBody =>
      simp only [callApiFrom, hr]
      by_cases hc : a < m - 1
      · rw [if_pos hc]; exact (ih _ _).trans (by omega)
      · rw [if_neg hc]; simp
    | raised =>
      simp only [callApiFrom, hr]
      by_cases hc : a < m - 1
      · rw [if_pos hc]; exact (ih _ _).trans (by omega)
      · rw [if_neg hc]; simp

/-- C5 counterexample: after a network failure (raised exception) on the
first attempt, `_call_api` does not abandon retries and fall back — it
sleeps 1 second and makes a second attempt, whose 200 response it returns. -/
theorem network_failure_retries :
    (callApi (fun _ => 0) ["t"]
      (fun n => if n = 0 then ApiAttempt.raised else ApiAttempt.okMany [[5]])).attemptsMade
      = 2 ∧
    (callApi (fun _ => 0) ["t"]
      (fun n => if n = 0 then ApiAttempt.raised else ApiAttempt.okMany [[5]])).fromFallback
      = false ∧
    (callApi (fun _ => 0) ["t"]
      (fun n => if n = 0 then ApiAttempt.raised else ApiAttempt.okMany [[5]])).vecs
      = [[5]] ∧
    (callApi (fun _ => 0) ["t"]
      (fun n => if n = 0 then ApiAttempt.raised else ApiAttempt.okMany [[5]])).sleeps
      = [1] :=
  ⟨rfl, rfl, rfl, rfl⟩

/-- C5 (amended): an HTTP 503 triggers a retry with at most 3 attempts total
and backoff delays doubling per attempt (1s, 2s, 4s); a non-200 non-503
response abandons retries immediately (one attempt, no sleep) and proceeds
to the fallback generator without raising; a network failure (raised
exception) also retries — with a constant 1-second delay — within the same
3-attempt budget before proceeding to the fallback generator without
raising; no call ever makes more than 3 attempts. -/
theorem call_api_retry_policy (h : String → Int) (texts : List String)
    (resp : ℕ → ApiAttempt) :
    ((∀ k, resp k = ApiAttempt.busy) →
      callApi h texts resp
        = ⟨fakeEmbeddings h embeddingDimension texts, true, [1, 2, 4], 3⟩) ∧
    (resp 0 = ApiAttempt.httpErr →
      callApi h texts resp
        = ⟨fakeEmbeddings h embeddingDimension texts, true, [], 1⟩) ∧
    ((∀ k, resp k = ApiAttempt.raised) →
      callApi h texts resp
        = ⟨fakeEmbeddings h embeddingDimension texts, true, [1, 1], 3⟩) ∧
    (callApi h texts resp).attemptsMade ≤ 3 := by
  refine ⟨fun hb => ?_, fun he => ?_, fun hr => ?_, ?_⟩
  · have h0 := hb 0
    have h1 := hb 1
    have h2 := hb 2
    simp [callApi, callApiFrom, h0, h1, h2]
  · simp [callApi, callApiFrom, he]
  · have h0 := hr 0
    have h1 := hr 1
    have h2 := hr 2
    simp [callApi, callApiFrom, h0, h1, h2]
  · exact callApiFrom_attempts_le h texts resp 3 3 0 []

/-- Witness for C5 at concrete oracles for each clause. -/
theorem call_api_retry_policy_witness :
    callApi (fun _ => 0) ["t"] (fun _ => ApiAttempt.busy)
      = ⟨fakeEmbeddings (fun _ => 0) embeddingDimension ["t"], true, [1, 2, 4], 3⟩ ∧
    callApi (fun _ => 0) ["t"] (fun _ => ApiAttempt.httpErr)
      = ⟨fakeEmbeddings (fun _ => 0) embeddingDimension ["t"], true, [], 1⟩ ∧
    callApi (fun _ => 0) ["t"] (fun _ => ApiAttempt.raised)
      = ⟨fakeEmbeddings (fun _ => 0) embeddingDimension ["t"], true, [1, 1], 3⟩ :=
  ⟨(call_api_retry_policy (fun _ => 0) ["t"] (fun _ => ApiAttempt.busy)).1 (fun _ => rfl),
   (call_api_retry_policy (fun _ => 0) ["t"] (fun _ => ApiAttempt.httpErr)).2.1 rfl,
   (call_api_retry_policy (fun _ => 0) ["t"] (fun _ => ApiAttempt.raised)).2.2.1 (fun _ => rfl)⟩

/-! ## C1 — chunk metadata invariants of `split_documents_with_metadata` -/

theorem enumFrom_length (k : ℕ) (l : List String) :
    (enumFrom k l).length = l.length := by
  induction l generalizing k with
  | nil => rfl
  | cons c cs ih => simp [enumFrom, ih]

theorem enumFrom_get (k : ℕ) (l : List String) (i : ℕ)
    (h1 : i < (enumFrom k l).length) (h2 : i < l.length) :
    (enumFrom k l).get ⟨i, h1⟩ = (k + i, l.get ⟨i, h2⟩) := by
  induction l generalizing k i with
  | nil => simp at h2
  | cons c cs ih =>
    cases i with
    | zero => simp [enumFrom]
    | succ j =>
      have hj : j < cs.length := by simpa using h2
      have hj1 : j < (enumFrom (k + 1) cs).length := by
        rw [enumFrom_length]; exact hj
      have : (enumFrom k (c :: cs)).get ⟨j + 1, h1⟩
          = (enumFrom (k + 1) cs).get ⟨j, hj1⟩ := rfl
      rw [this, ih (k + 1) j hj1 hj]
      have hadd : k + 1 + j = k + (j + 1) := by omega
      rw [hadd]
      rfl

theorem getMapAux {α β : Type} (f : α → β) (l : List α) (i : ℕ)
    (h1 : i < (l.map f).length) (h2 : i < l.length) :
    (l.map f).get ⟨i, h1⟩ = f (l.get ⟨i, h2⟩) := by
  induction l generalizing i with
  | nil => simp at h2
  | cons a t ih =>
    cases i with
    | zero => rfl
    | succ j => exact ih j (by simpa using h1) (by simpa using h2)

theorem metaLookup_chunk_id (pc fn dt : String) (n i : ℕ) (chunk : String) :
    metaLookup ⟨pc, chunkMetaPairs fn dt n i chunk⟩ "chunk_id"
      = some (PyVal.int i) := rfl

theorem metaLookup_total_chunks (pc fn dt : String) (n i : ℕ) (chunk : String) :
    metaLookup ⟨pc, chunkMetaPairs fn dt n i chunk⟩ "total_chunks"
      = some (PyVal.int n) := rfl

theorem metaLookup_position (pc fn dt : String) (n i : ℕ) (chunk : String) :
    metaLookup ⟨pc, chunkMetaPairs fn dt n i chunk⟩ "chunk_position"
      = some (PyVal.str
          (if i = 0 then "start" else if i = n - 1 then "end" else "middle")) := rfl

/-- Case analysis of the `chunk_position` expression of
`split_documents_with_metadata` line 115. -/
theorem posString_cases (n i : ℕ) :
    ((if i = 0 then "start" else if i = n - 1 then "end" else "middle")
        = "start" ↔ i = 0) ∧
    ((if i = 0 then "start" else if i = n - 1 then "end" else "middle")
        = "end" ↔ (i = n - 1 ∧ i ≠ 0)) ∧
    ((if i = 0 then "start" else if i = n - 1 then "end" else "middle")
        = "middle" ↔ (i ≠ 0 ∧ i ≠ n - 1)) := by
  by_cases h0 : i = 0
  · rw [if_pos h0]; simp [h0]
  · rw [if_neg h0]
    by_cases hEnd : i = n - 1
    · have hne : n - 1 ≠ 0 := hEnd ▸ h0
      rw [if_pos hEnd]; simp [h0, hEnd, hne]
    · rw [if_neg hEnd]; simp [h0, hEnd]

theorem splitDocs_length (text filename : String) (cs co : ℕ) :
    (splitDocumentsWithMetadata text filename cs co).length
      = (smartSplit text cs co).length := by
  simp only [splitDocumentsWithMetadata, List.length_map, enumFrom_length]

theorem splitDocs_get (text filename : String) (cs co i : ℕ)
    (h1 : i < (splitDocumentsWithMetadata text filename cs co).length)
    (h2 : i < (smartSplit text cs co).length) :
    (splitDocumentsWithMetadata text filename cs co).get ⟨i, h1⟩
      = { page_content := (smartSplit text cs co).get ⟨i, h2⟩,
          metadata := chunkMetaPairs filename (detectDocumentType text)
            (smartSplit text cs co).length i ((smartSplit text cs co).get ⟨i, h2⟩) } := by
  have h3 : i < (enumFrom 0 (smartSplit text cs co)).length := by
    rw [enumFrom_length]; exact h2
  simp only [splitDocumentsWithMetadata]
  rw [getMapAux _ _ i _ h3, enumFrom_get 0 _ i h3 h2]
  simp

/-- C1 (amended): the chunks returned by `split_documents_with_metadata`
carry `chunk_id` values forming the contiguous sequence `0..n-1` in output
order, every chunk has `total_chunks = n`, and `chunk_position` is `start`
iff `chunk_id = 0`, `end` iff `chunk_id = total_chunks - 1` and
`chunk_id ≠ 0`, and `middle` otherwise — in the single-chunk case the
position is `start`, not `end`, because the `i == 0` branch wins. -/
theorem split_documents_metadata_invariant (text filename : String)
    (cs co i : ℕ)
    (hi : i < (splitDocumentsWithMetadata text filename cs co).length) :
    metaLookup ((splitDocumentsWithMetadata text filename cs co).get ⟨i, hi⟩)
        "chunk_id" = some (PyVal.int i) ∧
    metaLookup ((splitDocumentsWithMetadata text filename cs co).get ⟨i, hi⟩)
        "total_chunks"
      = some (PyVal.int (splitDocumentsWithMetadata text filename cs co).length) ∧
    ((metaLookup ((splitDocumentsWithMetadata text filename cs co).get ⟨i, hi⟩)
        "chunk_position" = some (PyVal.str "start")) ↔ i = 0) ∧
    ((metaLookup ((splitDocumentsWithMetadata text filename cs co).get ⟨i, hi⟩)
        "chunk_position" = some (PyVal.str "end")) ↔
      (i = (splitDocumentsWithMetadata text filename cs co).length - 1 ∧ i ≠ 0)) ∧
    ((metaLookup ((splitDocumentsWithMetadata text filename cs co).get ⟨i, hi⟩)
        "chunk_position" = some (PyVal.str "middle")) ↔
      (i ≠ 0 ∧ i ≠ (splitDocumentsWithMetadata text filename cs co).length - 1)) := by
  have h2 : i < (smartSplit text cs co).length := by
    rw [← splitDocs_length text filename cs co]; exact hi
  rw [splitDocs_get text filename cs co i hi h2, splitDocs_length text filename cs co,
    metaLookup_chunk_id, metaLookup_total_chunks, metaLookup_position]
  have hp := posString_cases (smartSplit text cs co).length i
  refine ⟨rfl, rfl, ?_, ?_, ?_⟩ <;>
    simp only [Option.some.injEq, PyVal.str.injEq]
  · exact hp.1
  · exact hp.2.1
  · exact hp.2.2

/-- C1 counterexample: on the single-chunk input `"hello"`, the unique chunk
has `chunk_id = 0` and `total_chunks = 1`, so `chunk_id = total_chunks - 1`,
yet its `chunk_position` is `start` and not `end` — refuting the claimed
biconditional that `chunk_position` is `end` iff
`chunk_id = total_chunks - 1`. -/
theorem single_chunk_position_not_end :
    (splitDocumentsWithMetadata "hello" "f" 1000 200).map
        (fun d => metaLookup d "chunk_id") = [some (PyVal.int 0)] ∧
    (splitDocumentsWithMetadata "hello" "f" 1000 200).map
        (fun d => metaLookup d "total_chunks") = [some (PyVal.int 1)] ∧
    (splitDocumentsWithMetadata "hello" "f" 1000 200).map
        (fun d => metaLookup d "chunk_position") = [some (PyVal.str "start")] ∧
    some (PyVal.str "start") ≠ some (PyVal.str "end") := by
  have hs : smartSplit "hello" 1000 200 = ["hello"] := by decide
  refine ⟨?_, ?_, ?_, by simp⟩ <;>
    simp only [splitDocumentsWithMetadata, hs, enumFrom, List.map,
      metaLookup_chunk_id, metaLookup_total_chunks, metaLookup_position,
      List.length_cons, List.length_nil] <;>
    rfl

/-- Witness for C1 on the single-chunk document `"hello"`. -/
theorem split_documents_metadata_invariant_witness :
    metaLookup ((splitDocumentsWithMetadata "hello" "f" 1000 200).get
        ⟨0, by decide⟩) "chunk_id" = some (PyVal.int 0) ∧
    metaLookup ((splitDocumentsWithMetadata "hello" "f" 1000 200).get
        ⟨0, by decide⟩) "chunk_position" = some (PyVal.str "start") := by
  have h := split_documents_metadata_invariant "hello" "f" 1000 200 0 (by decide)
  exact ⟨h.1, h.2.2.1.mpr rfl⟩

/-! ## C6 — failed add writes nothing -/

/-- C6: whenever splitting yields zero usable chunks (for instance on empty
or whitespace-only text) or the auto-open fails, `add_documents_enhanced`
fails with an error and the collection is unchanged — no partial write. -/
theorem add_documents_failure_no_write (openOk : Bool) (st : StoreState)
    (text filename : String) (cs co : ℕ)
    (hfail : splitDocumentsWithMetadata text filename cs co = []
      ∨ (st.opened = false ∧ openOk = false)) :
    (∃ e, (addDocumentsEnhanced openOk st text filename cs co).1 = Except.error e) ∧
    (addDocumentsEnhanced openOk st text filename cs co).2.collection
      = st.collection := by
  unfold addDocumentsEnhanced
  by_cases hv : (validateChunkSize cs).1 = false
  · rw [if_pos hv]
    exact ⟨⟨_, rfl⟩, rfl⟩
  · rw [if_neg hv]
    by_cases hop : st.opened
    · simp only [if_pos hop]
      rw [if_neg (by simp [hop])]
      rcases hfail with hsplit | ⟨h1, _⟩
      · rw [hsplit]
        exact ⟨⟨_, rfl⟩, rfl⟩
      · rw [hop] at h1; cases h1
    · simp only [if_neg hop]
      rcases hfail with hsplit | ⟨_, h2⟩
      · by_cases hok : openOk = false
        · rw [if_pos (by simp [hok])]
          exact ⟨⟨_, rfl⟩, rfl⟩
        · rw [if_neg (by simpa using hok)]
          rw [hsplit]
          exact ⟨⟨_, rfl⟩, rfl⟩
      · rw [if_pos (by simp [h2])]
        exact ⟨⟨_, rfl⟩, rfl⟩

/-- Witness for C6: an empty text (zero chunks) with a working store, and a
non-empty text with a failing auto-open; neither writes to the collection. -/
theorem add_documents_failure_no_write_witness :
    (∃ e, (addDocumentsEnhanced true ⟨true, []⟩ "" "f" 1000 200).1 = Except.error e) ∧
    (addDocumentsEnhanced true ⟨true, []⟩ "" "f" 1000 200).2.collection = [] ∧
    (∃ e, (addDocumentsEnhanced false ⟨false, []⟩ "hello" "f" 1000 200).1
      = Except.error e) ∧
    (addDocumentsEnhanced false ⟨false, []⟩ "hello" "f" 1000 200).2.collection = [] := by
  have ha := add_documents_failure_no_write true ⟨true, []⟩ "" "f" 1000 200
    (Or.inl (List.eq_nil_of_length_eq_zero (by decide)))
  have hb := add_documents_failure_no_write false ⟨false, []⟩ "hello" "f" 1000 200
    (Or.inr ⟨rfl, rfl⟩)
  exact ⟨ha.1, ha.2, hb.1, hb.2⟩

/-! ## C7 — search degrades to an empty result list -/

/-- C7: for a valid query, `search_with_metadata` returns an empty list
rather than raising when the auto-open fails or when the similarity lookup
raises, and a lookup over an empty collection (which returns no hits)
produces an empty list, not an error. -/
theorem search_degrades_to_empty (openOk : Bool) (sim : SimOutcome)
    (st : StoreState) (query : String) (k : ℕ)
    (hq : (validateQuestion query).1 = true) :
    ((st.opened = false ∧ openOk = false) →
      (searchWithMetadata openOk sim st query k).1 = Except.ok []) ∧
    (∀ msg, sim = SimOutcome.raised msg →
      (searchWithMetadata openOk sim st query k).1 = Except.ok []) ∧
    (sim = SimOutcome.ok [] →
      (searchWithMetadata openOk sim st query k).1 = Except.ok []) := by
  unfold searchWithMetadata
  rw [if_neg (by simp [hq])]
  refine ⟨fun ⟨h1, h2⟩ => by simp [h1, h2], fun msg hmsg => ?_, fun hok => ?_⟩
  · by_cases hop : st.opened <;> by_cases hok2 : openOk <;>
      simp [hop, hok2, hmsg]
  · by_cases hop : st.opened <;> by_cases hok2 : openOk <;>
      simp [hop, hok2, hok]

/-- Witness for C7: a failed auto-open and an empty collection, both with
the valid query `"test"`. -/
theorem search_degrades_to_empty_witness :
    (searchWithMetadata false (SimOutcome.ok []) ⟨false, []⟩ "test" 3).1
      = Except.ok [] ∧
    (searchWithMetadata true (SimOutcome.raised "boom") ⟨true, []⟩ "test" 3).1
      = Except.ok [] :=
  ⟨(search_degrades_to_empty false (SimOutcome.ok []) ⟨false, []⟩ "test" 3
      (by decide)).1 ⟨rfl, rfl⟩,
   (search_degrades_to_empty true (SimOutcome.raised "boom") ⟨true, []⟩ "test" 3
      (by decide)).2.1 "boom" rfl⟩

end DontREADME
